import Mathlib

/-!
Verification of the brand-intelligence pipeline (gen-ad-gen).

Shallow embedding of the core services:
 - EvidenceService (src/src/services/storage.service.js)
 - the brand-summary confidence gate (src/routes, stage1Routes)
 - the retry helper and OpenAIService.callOpenAI error wrapping
   (src/utils/helpers.js, src/services/openai.service.js)
 - CacheService.getScrapedContent (src/src/services/cache.service.js)
 - the runs model and the phase routes (src/src/db/models/runs.model.js,
   stage1Routes)
 - ScraperService (src/src/services/scraper.service.js)
 - sanitizeUrl / extractDomain (src/utils/helpers.js), over a model of the
   WHATWG URL parser.

Network and database effects are represented by explicit oracle parameters;
machine floats are modelled as exact rationals.
-/

namespace GenAdGen

/-! ### Error taxonomy (src/utils/errors.js)

Each AppError carries a fixed code string, an HTTP statusCode, a message and,
for OpenAI errors, the provider HTTP status recorded in details.status. -/

structure AppError where
  code : String
  statusCode : ℕ
  msg : String
  detailStatus : Option ℕ
deriving DecidableEq, Repr

/-! ### EvidenceService (storage.service.js lines 112-222) -/

/-- calculateConfidencePenalty: 0 when totalCount = 0, else
min(invalid/total * 0.3, 0.3). -/
def calculateConfidencePenalty (invalidCount totalCount : ℕ) : ℚ :=
  if totalCount = 0 then 0
  else min ((invalidCount : ℚ) / (totalCount : ℚ) * (3/10)) (3/10)

structure InvalidRef where
  url : String
  reason : String
deriving DecidableEq, Repr

structure EvidenceValidation where
  valid : List String
  invalid : List InvalidRef
  confidence_penalty : ℚ
deriving DecidableEq, Repr

/-- checkEvidenceRefs. validateUrl performs network I/O (domain allow-list,
HEAD request, redirect check); its outcome per URL is the oracle `check`:
`none` means the URL validated, `some reason` the recorded invalidity. -/
def checkEvidenceRefs (urls : List String) (check : String → Option String) :
    EvidenceValidation :=
  if urls = [] then ⟨[], [], 0⟩
  else
    let results := urls.map fun u => (u, check u)
    let valid := (results.filter fun r => r.2.isNone).map Prod.fst
    let invalid := (results.filter fun r => r.2.isSome).map fun r =>
      ⟨r.1, r.2.getD ""⟩
    ⟨valid, invalid, calculateConfidencePenalty invalid.length urls.length⟩

/-! ### Brand-summary confidence gate (stage1Routes, /v1/brand-summary) -/

/-- adjustedConfidence = Math.max(0, confidence_0_1 - confidence_penalty). -/
def adjustConfidence (reported penalty : ℚ) : ℚ :=
  max 0 (reported - penalty)

structure LowConfidenceDetails where
  confidence : ℚ
  invalidEvidence : List InvalidRef
deriving DecidableEq, Repr

/-- The gate in the /v1/brand-summary handler: throw LowConfidenceError with
the adjusted confidence and the invalid citations when adjusted < 0.6,
otherwise keep the adjusted confidence. -/
def brandSummaryConfidenceGate (reported : ℚ) (ev : EvidenceValidation) :
    Except LowConfidenceDetails ℚ :=
  let adjusted := adjustConfidence reported ev.confidence_penalty
  if adjusted < 3/5 then .error ⟨adjusted, ev.invalid⟩ else .ok adjusted

/-! ### LLM retry (helpers.js retry, openai.service.js callOpenAI) -/

/-- Outcome of one raw provider (OpenAI SDK) call, as classified by the
catch block of callOpenAI. `success` covers a 2xx response whose content
parsed as JSON. -/
inductive ProviderOutcome where
  | success (json : String)
  | timeout
  | httpError (status : ℕ)
  | otherError (msg : String)
deriving DecidableEq, Repr

/-- callOpenAI: a success returns the parsed JSON; a timeout becomes
OpenAITimeoutError (504); a 401 or 429 becomes OpenAIError (503) with the
provider status only in details; anything else becomes OpenAIError (503). -/
def callOpenAI (outcome : ProviderOutcome) : Except AppError String :=
  match outcome with
  | .success j => .ok j
  | .timeout => .error ⟨"OPENAI_TIMEOUT", 504, "OpenAI request timeout", none⟩
  | .httpError s =>
    if s = 401 then
      .error ⟨"OPENAI_ERROR", 503, "Invalid OpenAI API key", some 401⟩
    else if s = 429 then
      .error ⟨"OPENAI_ERROR", 503, "OpenAI rate limit exceeded", some 429⟩
    else
      .error ⟨"OPENAI_ERROR", 503, "openai error", none⟩
  | .otherError m => .error ⟨"OPENAI_ERROR", 503, m, none⟩

structure RetryTrace (α : Type) where
  result : Except AppError α
  calls : ℕ
  delays : List ℕ
deriving Repr

/-- Only reachable when retry is invoked with maxAttempts = 0 (the JS code
would then throw undefined); never used at the call sites. -/
def retryFallbackError : AppError := ⟨"INTERNAL_ERROR", 500, "", none⟩

/-- The loop body of retry: fn is the oracle giving each attempt's outcome,
attempt is the 1-based attempt counter, fuel the remaining attempts.
On an error whose statusCode is 4xx the error is rethrown at once; otherwise
the loop sleeps baseDelay * 2^(attempt-1) ms and tries again, and after the
last attempt rethrows the last error. -/
def retrySim {α : Type} (fn : ℕ → Except AppError α) (baseDelay : ℕ) :
    (attempt fuel : ℕ) → Option AppError → RetryTrace α
  | _, 0, last => ⟨.error (last.getD retryFallbackError), 0, []⟩
  | attempt, fuel + 1, _ =>
    match fn attempt with
    | .ok v => ⟨.ok v, 1, []⟩
    | .error e =>
      if 400 ≤ e.statusCode ∧ e.statusCode < 500 then ⟨.error e, 1, []⟩
      else if fuel = 0 then ⟨.error e, 1, []⟩
      else
        let t := retrySim fn baseDelay (attempt + 1) fuel (some e)
        ⟨t.result, t.calls + 1, baseDelay * 2 ^ (attempt - 1) :: t.delays⟩

/-- retry(fn, maxAttempts, baseDelay) from helpers.js. -/
def retry {α : Type} (fn : ℕ → Except AppError α) (maxAttempts baseDelay : ℕ) :
    RetryTrace α :=
  retrySim fn baseDelay 1 maxAttempts none

/-- Every OpenAIService method wraps callOpenAI as
retry(() => callOpenAI(tag, prompt), 3, 2000). -/
def llmCallWithRetry (oracle : ℕ → ProviderOutcome) : RetryTrace String :=
  retry (fun n => callOpenAI (oracle n)) 3 2000

/-! ### CacheService.getScrapedContent (cache.service.js lines 17-49)

The Redis read, the PostgreSQL read and the Redis backfill write are
fallible external calls, modelled as Except values. The whole body sits in
one try/catch whose catch returns null. -/

def getScrapedContent {D : Type} (redisGet : Except String (Option D))
    (dbGet : Except String (Option D)) (redisSet : Except String Unit) :
    Option D :=
  match redisGet with
  | .error _ => none
  | .ok (some d) => some d
  | .ok none =>
    match dbGet with
    | .error _ => none
    | .ok (some d) =>
      match redisSet with
      | .error _ => none
      | .ok _ => some d
    | .ok none => none

/-! ### Run store (runs.model.js, storage.service.js) and phase routes
(stage1Routes)

A run row carries the four artifact slots as opaque JSONB payloads; the
artifact contents are irrelevant to the store semantics, so brand and
kernel payloads are Strings and the competitor slots lists. -/

inductive RunStatus where
  | active
  | archived
  | deleted
deriving DecidableEq, Repr

/-- CompetitorCandidate as produced by competitors discovery. -/
structure Candidate where
  name : String
  domain : String
  confidence : ℚ
deriving DecidableEq, Repr

structure RunRow where
  runId : String
  status : RunStatus
  expiresAt : ℤ
  brandData : Option String
  competitors10 : Option (List Candidate)
  competitorsSelected : Option (List String)
  kernelData : Option String
deriving DecidableEq, Repr

/-- getRun (runs.model.js lines 33-41):
SELECT * FROM runs WHERE run_id = $1 AND status = 'active', first row or
null. Note the query has no condition on expires_at. -/
def getRunModel (store : List RunRow) (rid : String) : Option RunRow :=
  (store.filter fun r => r.runId = rid ∧ r.status = .active).head?

def upstreamMissingError (m : String) : AppError :=
  ⟨"UPSTREAM_ARTIFACT_MISSING", 424, m, none⟩

/-- StorageService.getRun with throwIfNotFound = true: a null row becomes an
UpstreamArtifactMissingError (424). -/
def storageGetRun (store : List RunRow) (rid : String) :
    Except AppError RunRow :=
  match getRunModel store rid with
  | some r => .ok r
  | none => .error (upstreamMissingError "Run not found")

/-- updateRun: UPDATE runs SET ... WHERE run_id = $n (no status filter). -/
def updateRows (store : List RunRow) (rid : String) (f : RunRow → RunRow) :
    List RunRow :=
  store.map fun r => if r.runId = rid then f r else r

/-- POST /v1/competitors: load the run, gate on brand_data, filter the
LLM-discovered candidates by confidence >= 0.6, save competitors_10.
`cands` is the oracle for the findCompetitors LLM call; the returned store
is the state after the handler. -/
def competitorsRoute (store : List RunRow) (rid : String)
    (cands : List Candidate) : Except AppError (List RunRow) :=
  match storageGetRun store rid with
  | .error e => .error e
  | .ok run =>
    if run.brandData.isNone then
      .error (upstreamMissingError "Brand analysis not found for this run")
    else
      let filtered := cands.filter fun c => 3/5 ≤ c.confidence
      .ok (updateRows store rid fun r => { r with competitors10 := some filtered })

/-- POST /v1/competitors/analyze: load the run, gate on competitors_10,
save the analyses (the per-domain scrape+LLM results, oracle `analyses`)
into competitors_selected. -/
def competitorsAnalyzeRoute (store : List RunRow) (rid : String)
    (analyses : List String) : Except AppError (List RunRow) :=
  match storageGetRun store rid with
  | .error e => .error e
  | .ok run =>
    if run.competitors10.isNone then
      .error (upstreamMissingError "Competitors not discovered yet")
    else
      .ok (updateRows store rid fun r =>
        { r with competitorsSelected := some analyses })

/-- POST /v1/kernel: load the run, gate on brand_data and on a non-empty
competitors_selected, save kernel_data (LLM result oracle `kern`). -/
def kernelRoute (store : List RunRow) (rid : String) (kern : String) :
    Except AppError (List RunRow) :=
  match storageGetRun store rid with
  | .error e => .error e
  | .ok run =>
    if run.brandData.isNone then
      .error (upstreamMissingError "Brand analysis not found")
    else if run.competitorsSelected.isNone ∨ run.competitorsSelected = some [] then
      .error (upstreamMissingError "No analyzed competitors found")
    else
      .ok (updateRows store rid fun r => { r with kernelData := some kern })

/-- The store a caller observes after a handler ran: the new store on
success, the untouched one when the handler threw. -/
def routeStoreAfter (store : List RunRow)
    (res : Except AppError (List RunRow)) : List RunRow :=
  match res with
  | .ok s => s
  | .error _ => store

/-- The handler failed with 424 UPSTREAM_ARTIFACT_MISSING and the store is
unchanged. -/
def failsUpstream424 (store : List RunRow)
    (res : Except AppError (List RunRow)) : Prop :=
  (∃ e, res = .error e ∧ e.code = "UPSTREAM_ARTIFACT_MISSING" ∧
    e.statusCode = 424) ∧ routeStoreAfter store res = store

/-! ### Helpers: ASCII lowering and whitespace splitting -/

/-- toLowerCase restricted to ASCII letters, the only characters for which
the tokenizer's and the URL parser's behaviour matters here. -/
def charLower (c : Char) : Char :=
  match c with
  | 'A' => 'a' | 'B' => 'b' | 'C' => 'c' | 'D' => 'd' | 'E' => 'e'
  | 'F' => 'f' | 'G' => 'g' | 'H' => 'h' | 'I' => 'i' | 'J' => 'j'
  | 'K' => 'k' | 'L' => 'l' | 'M' => 'm' | 'N' => 'n' | 'O' => 'o'
  | 'P' => 'p' | 'Q' => 'q' | 'R' => 'r' | 'S' => 's' | 'T' => 't'
  | 'U' => 'u' | 'V' => 'v' | 'W' => 'w' | 'X' => 'x' | 'Y' => 'y'
  | 'Z' => 'z'
  | c => c

def strLower (s : String) : String := String.mk (s.data.map charLower)

/-- str.split(/\s+/): split at maximal whitespace runs, keeping the (possibly
empty) pieces before the first run and after the last. -/
def wsSplitGo : List Char → List Char → List String
  | [], cur => [String.mk cur.reverse]
  | c :: cs, cur =>
    if c.isWhitespace then
      match cs with
      | [] => [String.mk cur.reverse, ""]
      | d :: _ =>
        if d.isWhitespace then wsSplitGo cs cur
        else String.mk cur.reverse :: wsSplitGo cs []
    else wsSplitGo cs (c :: cur)

def jsSplitWs (s : String) : List String := wsSplitGo s.data []

/-! ### Jaccard deduplication (helpers.js jaccardSimilarity,
scraper.service.js deduplicateContent) -/

structure Page where
  url : String
  title : String
  content : String
deriving DecidableEq, Repr

/-- jaccardSimilarity(set1, set2) = |intersection| / |union|. (In JS a 0/0
case would be NaN, which compares false against the threshold; rationals
give 0/0 = 0, which also compares false, and the token set of any content is
in fact non-empty since split never returns an empty array.) -/
def jaccardSimilarity (s1 s2 : Finset String) : ℚ :=
  ((s1 ∩ s2).card : ℚ) / ((s1 ∪ s2).card : ℚ)

/-- new Set(page.content.toLowerCase().split(/\s+/)). -/
def pageTokens (p : Page) : Finset String :=
  (jsSplitWs (strLower p.content)).toFinset

/-- Decidable form of the dedup guard: similarity to a kept page exceeds
the 0.8 threshold. -/
def similarPages (p q : Page) : Bool :=
  decide (jaccardSimilarity (pageTokens p) (pageTokens q) > 4/5)

/-- Inner loop of deduplicateContent: unique holds the kept pages in order;
each subsequent page is discarded iff its similarity to some kept page
exceeds 0.8. -/
def dedupGo (unique : List Page) : List Page → List Page
  | [] => unique
  | p :: ps =>
    if unique.any fun u => similarPages p u then dedupGo unique ps
    else dedupGo (unique ++ [p]) ps

/-- deduplicateContent (scraper.service.js lines 216-244). -/
def deduplicateContent (pages : List Page) : List Page :=
  match pages with
  | [] => []
  | p :: rest => dedupGo [p] rest

/-! ### URL model

Modelled from the spec: sanitizeUrl (helpers.js lines 229-245) delegates
parsing and serialization to the platform's WHATWG URL class, which is not
part of this repository. The spec describes canonicalization as: accept only
http/https, strip the fragment, reject malformed input. The model below
implements the scheme://host[:port]path[?query][#fragment] fragment of the
WHATWG parser with its normalizations (scheme and host lowercased, default
port removed, leading zeros stripped from the port, empty path replaced by
"/"); inputs outside that fragment are rejected. -/

structure URLRecord where
  scheme : String
  host : String
  port : Option String
  path : String
  query : Option String
  fragment : Option String
deriving DecidableEq, Repr

/-- The characters before the first one satisfying p, and the remainder
(which is empty or starts with a character satisfying p). -/
def splitFirst (p : Char → Bool) : List Char → List Char × List Char
  | [] => ([], [])
  | c :: cs =>
    if p c then ([], c :: cs)
    else
      let r := splitFirst p cs
      (c :: r.1, r.2)

def schemeCharOK (c : Char) : Bool :=
  c.isAlphanum || c = '+' || c = '-' || c = '.'

def hostCharOK (c : Char) : Bool :=
  c.isAlphanum || c = '.' || c = '-'

def stripLeadingZeros (ds : List Char) : List Char :=
  if ds.dropWhile (· = '0') = [] then ['0'] else ds.dropWhile (· = '0')

/-- Port normalization: an empty port is absent; leading zeros are dropped;
the scheme's default port (80 for http, 443 for https) is removed. -/
def normalizePort (scheme ds : List Char) : Option (List Char) :=
  if ds = [] then none
  else if (scheme = ['h', 't', 't', 'p'] ∧
        stripLeadingZeros ds = ['8', '0']) ∨
      (scheme = ['h', 't', 't', 'p', 's'] ∧
        stripLeadingZeros ds = ['4', '4', '3']) then none
  else some (stripLeadingZeros ds)

/-- The scheme must be non-empty, made of scheme characters, and start
with a letter. -/
def schemeValid (s : List Char) : Bool :=
  (!s.isEmpty) && s.all schemeCharOK &&
    (match s with | c :: _ => c.isAlpha | [] => false)

def hostValid (hs : List Char) : Bool :=
  (!hs.isEmpty) && hs.all hostCharOK

/-- The port section of the authority: absent, or a colon followed by
digits, normalized; anything else is a parse error. -/
def parsePortPart (scheme : List Char) :
    List Char → Option (Option (List Char))
  | [] => some none
  | ':' :: ds =>
    if ds.all Char.isDigit then some (normalizePort scheme ds) else none
  | _ => none

/-- The path: the characters up to the query/fragment delimiter when the
remainder starts with a slash, the root path otherwise. -/
def parsePathPart (rest3 : List Char) : List Char × List Char :=
  match rest3 with
  | '/' :: _ => splitFirst (fun c => c = '?' || c = '#') rest3
  | _ => (['/'], rest3)

/-- Query and fragment from the remainder after the path. -/
def parseQF : List Char → Option (List Char) × Option (List Char)
  | '?' :: rq =>
    (some (splitFirst (· = '#') rq).1,
     match (splitFirst (· = '#') rq).2 with
     | '#' :: f => some f
     | _ => none)
  | '#' :: f => (none, some f)
  | _ => (none, none)

def urlParseL (l : List Char) : Option URLRecord :=
  match splitFirst (· = ':') l with
  | (schemeRaw, ':' :: '/' :: '/' :: rest2) =>
    if schemeValid schemeRaw then
      match splitFirst (fun c => c = '/' || c = '?' || c = '#') rest2 with
      | (auth, rest3) =>
        match splitFirst (· = ':') auth with
        | (hostRaw, portPart) =>
          if hostValid hostRaw then
            match parsePortPart (schemeRaw.map charLower) portPart with
            | none => none
            | some port =>
              match parsePathPart rest3 with
              | (path, rest4) =>
                match parseQF rest4 with
                | (query, frag) =>
                  some ⟨String.mk (schemeRaw.map charLower),
                        String.mk (hostRaw.map charLower),
                        port.map String.mk, String.mk path,
                        query.map String.mk, frag.map String.mk⟩
          else none
    else none
  | _ => none

def portL : Option String → List Char
  | none => []
  | some p => ':' :: p.data

def queryL : Option String → List Char
  | none => []
  | some q => '?' :: q.data

def fragL : Option String → List Char
  | none => []
  | some f => '#' :: f.data

def urlSerializeL (r : URLRecord) : List Char :=
  r.scheme.data ++ (':' :: '/' :: '/' ::
    (r.host.data ++ (portL r.port ++ (r.path.data ++
      (queryL r.query ++ fragL r.fragment)))))

def urlParse (s : String) : Option URLRecord := urlParseL s.data

def urlSerialize (r : URLRecord) : String := String.mk (urlSerializeL r)

/-- sanitizeUrl (helpers.js lines 229-245): parse, allow only http/https,
drop the fragment, serialize; any failure is reported as an error. -/
def sanitizeUrl (url : String) : Except String String :=
  match urlParse url with
  | none => .error "Invalid URL"
  | some r =>
    if r.scheme = "http" ∨ r.scheme = "https" then
      .ok (urlSerialize { r with fragment := none })
    else .error "Invalid URL: Only HTTP and HTTPS protocols are allowed"

def stripWww (h : List Char) : List Char :=
  match h with
  | 'w' :: 'w' :: 'w' :: '.' :: rest => rest
  | _ => h

/-- extractDomain (helpers.js lines 252-259): hostname with a leading
"www." removed, null on parse failure. -/
def extractDomain (url : String) : Option String :=
  match urlParse url with
  | none => none
  | some r => some (String.mk (stripWww r.host.data))

/-! ### Scraper (scraper.service.js) -/

def commonPaths : List String :=
  ["/", "/about", "/about-us", "/company", "/our-story", "/products",
   "/services", "/solutions", "/features", "/how-it-works", "/mission",
   "/vision", "/values", "/team", "/careers", "/blog", "/news", "/press",
   "/contact", "/faq", "/help"]

def jsSetDedupGo (seen : List String) : List String → List String
  | [] => []
  | x :: xs =>
    if x ∈ seen then jsSetDedupGo seen xs
    else x :: jsSetDedupGo (x :: seen) xs

/-- Spread of new Set(urls): duplicates removed keeping first occurrences. -/
def jsSetDedup (l : List String) : List String := jsSetDedupGo [] l

/-- baseUrl.startsWith('https'). -/
def startsWithHttps (s : String) : Bool :=
  match s.data with
  | 'h' :: 't' :: 't' :: 'p' :: 's' :: _ => true
  | _ => false

/-- discoverPages: root of the site combined with ~20 common paths. -/
def discoverPages (baseUrl : String) : List String :=
  let domain := (extractDomain baseUrl).getD ""
  let protocol := if startsWithHttps baseUrl then "https" else "http"
  let base := protocol ++ "://" ++ domain
  jsSetDedup (commonPaths.map fun p => base ++ p)

inductive ScrapeError where
  | invalidUrl (msg : String)
  | insufficientData (msg : String)
deriving DecidableEq, Repr

structure ScrapeMetadata where
  url : String
  domain : String
  totalCandidates : ℕ
  validUrls : ℕ
  scrapedPages : ℕ
  uniquePages : ℕ
deriving DecidableEq, Repr

structure ScrapeResult where
  pages : List Page
  metadata : ScrapeMetadata
deriving DecidableEq, Repr

/-- scrapePages batches the URLs in groups of `conc` (SCRAPE_CONCURRENCY)
and keeps the non-null results of scrapePage in order; the fetch oracle
gives scrapePage's outcome per URL (none = timed out / failed to navigate /
threw, absorbed). The fuel argument (initialized to the list length) only
drives termination of the batching loop. -/
def scrapePagesGo (fetch : String → Option Page) (conc : ℕ) :
    ℕ → List String → List Page
  | 0, _ => []
  | _, [] => []
  | fuel + 1, urls =>
    (urls.take conc).filterMap fetch ++
      scrapePagesGo fetch conc fuel (urls.drop conc)

def scrapePages (fetch : String → Option Page) (conc : ℕ)
    (urls : List String) : List Page :=
  scrapePagesGo fetch conc urls.length urls

/-- scrapeWebsite (scraper.service.js lines 18-79). The cache read's
outcome is `cached` (CacheService.getScrapedContent never throws), the
per-URL HEAD probe outcome is `probeOk`, the per-page fetch outcome is
`fetch`. Returns the response together with the cache write performed
(none on a cache hit). -/
def scrapeWebsite (cached : Option ScrapeResult) (probeOk : String → Bool)
    (fetch : String → Option Page) (conc : ℕ) (url : String) :
    Except ScrapeError (ScrapeResult × Option ScrapeResult) :=
  match sanitizeUrl url with
  | .error m => .error (.invalidUrl m)
  | .ok sanitized =>
    match cached with
    | some c => .ok (c, none)
    | none =>
      let domain := (extractDomain sanitized).getD ""
      let candidateUrls := discoverPages sanitized
      let validUrls := candidateUrls.filter probeOk
      if validUrls = [] then
        .error (.insufficientData "No accessible pages found")
      else
        let pages := scrapePages fetch conc validUrls
        let uniquePages := deduplicateContent pages
        let result : ScrapeResult :=
          ⟨uniquePages,
           ⟨sanitized, domain, candidateUrls.length, validUrls.length,
            pages.length, uniquePages.length⟩⟩
        .ok (result, some result)

/-- Normal form of URL records: exactly the shape urlParseL outputs
(scheme lowered, valid and starting with a letter; host lowered, valid and
non-empty; port normalized, all digits and non-default; path starting with
a slash and free of the query/fragment delimiters; query free of the
fragment delimiter). Serializing such a record and reparsing is the
identity. -/
structure URLWF (r : URLRecord) : Prop where
  scheme_head : ∃ c t, r.scheme.data = c :: t ∧ c.isAlpha = true
  scheme_ok : ∀ c ∈ r.scheme.data, schemeCharOK c = true ∧ charLower c = c
  host_ne : r.host.data ≠ []
  host_ok : ∀ c ∈ r.host.data, hostCharOK c = true ∧ charLower c = c
  port_ok : ∀ p, r.port = some p → p.data.all Char.isDigit = true ∧
    normalizePort r.scheme.data p.data = some p.data
  path_start : ∃ t, r.path.data = '/' :: t
  path_ok : ∀ c ∈ r.path.data, c ≠ '?' ∧ c ≠ '#'
  query_ok : ∀ q, r.query = some q → ∀ c ∈ q.data, c ≠ '#'

/-! ## Theorems

Shared helper lemmas first, then one theorem per verified claim. -/

theorem calculateConfidencePenalty_nonneg (i t : ℕ) :
    0 ≤ calculateConfidencePenalty i t := by
  unfold calculateConfidencePenalty
  split
  · exact le_refl 0
  · exact le_min (by positivity) (by norm_num)

theorem calculateConfidencePenalty_le (i t : ℕ) :
    calculateConfidencePenalty i t ≤ 3/10 := by
  unfold calculateConfidencePenalty
  split
  · norm_num
  · exact min_le_right _ _

theorem calculateConfidencePenalty_eq_zero_iff (i t : ℕ) (ht : t ≠ 0) :
    calculateConfidencePenalty i t = 0 ↔ i = 0 := by
  unfold calculateConfidencePenalty
  rw [if_neg ht]
  have htq : (t : ℚ) ≠ 0 := Nat.cast_ne_zero.mpr ht
  constructor
  · intro h
    rcases min_eq_iff.mp h with ⟨h1, _⟩ | ⟨h1, _⟩
    · have h2 : (i : ℚ) / (t : ℚ) = 0 := by
        rcases mul_eq_zero.mp h1 with h2 | h2
        · exact h2
        · norm_num at h2
      have h3 : (i : ℚ) = 0 := by
        rcases div_eq_zero_iff.mp h2 with h3 | h3
        · exact h3
        · exact absurd h3 htq
      exact_mod_cast h3
    · norm_num at h1
  · intro h
    subst h
    norm_num

theorem checkEvidenceRefs_penalty (urls : List String)
    (check : String → Option String) :
    (checkEvidenceRefs urls check).confidence_penalty =
      calculateConfidencePenalty
        (checkEvidenceRefs urls check).invalid.length urls.length := by
  unfold checkEvidenceRefs
  split
  · rename_i h
    subst h
    rfl
  · rfl

/-- C4 (corrected): the confidence penalty equals
min(invalid/total * 0.3, 0.3) and is 0 when the total is 0; it always lies
in [0, 0.3]; and it is 0 exactly when no URL was marked invalid (not: exactly
when the URL list is empty — a non-empty list whose URLs all validate also
yields penalty 0). -/
theorem evidence_penalty_spec (urls : List String)
    (check : String → Option String) :
    (∀ i t : ℕ, calculateConfidencePenalty i t =
      if t = 0 then 0 else min ((i : ℚ) / (t : ℚ) * (3/10)) (3/10)) ∧
    (checkEvidenceRefs urls check).confidence_penalty =
      calculateConfidencePenalty
        (checkEvidenceRefs urls check).invalid.length urls.length ∧
    0 ≤ (checkEvidenceRefs urls check).confidence_penalty ∧
    (checkEvidenceRefs urls check).confidence_penalty ≤ 3/10 ∧
    ((checkEvidenceRefs urls check).confidence_penalty = 0 ↔
      (checkEvidenceRefs urls check).invalid = []) := by
  refine ⟨fun i t => rfl, checkEvidenceRefs_penalty urls check, ?_, ?_, ?_⟩
  · rw [checkEvidenceRefs_penalty]
    exact calculateConfidencePenalty_nonneg _ _
  · rw [checkEvidenceRefs_penalty]
    exact calculateConfidencePenalty_le _ _
  · rw [checkEvidenceRefs_penalty]
    by_cases h : urls = []
    · subst h
      simp [checkEvidenceRefs, calculateConfidencePenalty]
    · rw [calculateConfidencePenalty_eq_zero_iff _ _
        (fun hl => h (List.length_eq_zero.mp hl))]
      exact List.length_eq_zero

/-- C4 counterexample: a one-element URL list whose URL validates produces
penalty 0 although the list is non-empty, refuting penalty = 0 iff
urls = []. -/
theorem evidence_penalty_zero_on_valid_nonempty :
    (checkEvidenceRefs ["https://a.com/x"] fun _ => none).confidence_penalty
      = 0 ∧ ["https://a.com/x"] ≠ ([] : List String) := by
  constructor
  · norm_num [checkEvidenceRefs, calculateConfidencePenalty]
  · simp

theorem brandSummaryConfidenceGate_eq (r : ℚ) (ev : EvidenceValidation) :
    brandSummaryConfidenceGate r ev =
      if max 0 (r - ev.confidence_penalty) < 3/5 then
        .error ⟨max 0 (r - ev.confidence_penalty), ev.invalid⟩
      else .ok (max 0 (r - ev.confidence_penalty)) := rfl

/-- C5 (confirmed): the surfaced confidence is max(0, reported - penalty);
the brand-summary gate fails exactly when that value is strictly below 0.6
(0.6 itself passes, 0.599 fails) and the error carries the adjusted
confidence and the invalid citations. -/
theorem brandSummary_confidence_gate_spec (r : ℚ) (ev : EvidenceValidation) :
    adjustConfidence r ev.confidence_penalty =
      max 0 (r - ev.confidence_penalty) ∧
    ((∃ d, brandSummaryConfidenceGate r ev = .error d) ↔
      max 0 (r - ev.confidence_penalty) < 3/5) ∧
    (∀ d, brandSummaryConfidenceGate r ev = .error d →
      d.confidence = max 0 (r - ev.confidence_penalty) ∧
      d.invalidEvidence = ev.invalid) ∧
    (¬ max 0 (r - ev.confidence_penalty) < 3/5 →
      brandSummaryConfidenceGate r ev =
        .ok (max 0 (r - ev.confidence_penalty))) ∧
    brandSummaryConfidenceGate (3/5) ⟨[], [], 0⟩ = .ok (3/5) ∧
    brandSummaryConfidenceGate (599/1000) ⟨[], [], 0⟩ =
      .error ⟨599/1000, []⟩ := by
  simp only [brandSummaryConfidenceGate_eq]
  refine ⟨rfl, ?_, ?_, ?_, by norm_num [max_def], by norm_num [max_def]⟩
  · constructor
    · rintro ⟨d, hd⟩
      by_contra h
      rw [if_neg h] at hd
      cases hd
    · intro h
      exact ⟨_, by rw [if_pos h]⟩
  · intro d hd
    by_cases h : max 0 (r - ev.confidence_penalty) < 3/5
    · rw [if_pos h] at hd
      cases hd
      exact ⟨rfl, rfl⟩
    · rw [if_neg h] at hd
      cases hd
  · intro h
    rw [if_neg h]

/-- Witness for C5 at reported = 1/2, penalty = 0: the gate rejects. -/
theorem brandSummary_confidence_gate_witness :
    ∃ d, brandSummaryConfidenceGate (1/2) ⟨[], [], 0⟩ = .error d :=
  (brandSummary_confidence_gate_spec (1/2) ⟨[], [], 0⟩).2.1.mpr (by norm_num)

/-- C10 (confirmed): any failure while reading either cache tier or while
backfilling the fast tier makes getScrapedContent return null, exactly like
a miss; the error never propagates. -/
theorem cache_read_failure_is_miss {D : Type} (rg dg : Except String (Option D))
    (rs : Except String Unit)
    (h : (∃ m, rg = .error m) ∨ (rg = .ok none ∧ ∃ m, dg = .error m) ∨
      (rg = .ok none ∧ (∃ d, dg = .ok (some d)) ∧ ∃ m, rs = .error m)) :
    getScrapedContent rg dg rs = none := by
  rcases h with ⟨m, rfl⟩ | ⟨rfl, m, rfl⟩ | ⟨rfl, ⟨d, rfl⟩, m, rfl⟩ <;> rfl

/-- Witness for C10: a failing fast-tier read yields a miss. -/
theorem cache_read_failure_is_miss_witness :
    getScrapedContent (D := ℕ) (.error "redis down") (.ok none) (.ok ()) =
      none :=
  cache_read_failure_is_miss _ _ _ (Or.inl ⟨"redis down", rfl⟩)

theorem callOpenAI_error_code (o : ProviderOutcome) (e : AppError)
    (h : callOpenAI o = .error e) : e.statusCode = 503 ∨ e.statusCode = 504 := by
  cases o with
  | success j => exact absurd h (by simp [callOpenAI])
  | timeout =>
    simp only [callOpenAI, Except.error.injEq] at h
    subst h
    right
    rfl
  | httpError s =>
    simp only [callOpenAI] at h
    split at h
    · simp only [Except.error.injEq] at h
      subst h
      left
      rfl
    · split at h <;>
        (simp only [Except.error.injEq] at h; subst h; left; rfl)
  | otherError m =>
    simp only [callOpenAI, Except.error.injEq] at h
    subst h
    left
    rfl

theorem retrySim_ok {α : Type} (fn : ℕ → Except AppError α) (bd a f : ℕ)
    (last : Option AppError) (v : α) (h : fn a = .ok v) :
    retrySim fn bd a (f + 1) last = ⟨.ok v, 1, []⟩ := by
  simp [retrySim, h]

theorem retrySim_err_4xx {α : Type} (fn : ℕ → Except AppError α) (bd a f : ℕ)
    (last : Option AppError) (e : AppError) (h : fn a = .error e)
    (hc : 400 ≤ e.statusCode ∧ e.statusCode < 500) :
    retrySim fn bd a (f + 1) last = ⟨.error e, 1, []⟩ := by
  simp [retrySim, h, hc]

theorem retrySim_err_cont {α : Type} (fn : ℕ → Except AppError α) (bd a f : ℕ)
    (last : Option AppError) (e : AppError) (h : fn a = .error e)
    (hc : ¬(400 ≤ e.statusCode ∧ e.statusCode < 500)) (hf : f ≠ 0) :
    retrySim fn bd a (f + 1) last =
      ⟨(retrySim fn bd (a + 1) f (some e)).result,
       (retrySim fn bd (a + 1) f (some e)).calls + 1,
       bd * 2 ^ (a - 1) :: (retrySim fn bd (a + 1) f (some e)).delays⟩ := by
  simp [retrySim, h, hc, hf]

theorem retrySim_err_last {α : Type} (fn : ℕ → Except AppError α) (bd a : ℕ)
    (last : Option AppError) (e : AppError) (h : fn a = .error e)
    (hc : ¬(400 ≤ e.statusCode ∧ e.statusCode < 500)) :
    retrySim fn bd a 1 last = ⟨.error e, 1, []⟩ := by
  simp [retrySim, h, hc]

/-- C8 (confirmed): each LLM gateway call makes between 1 and 3 outbound
provider calls, waits 2 s and then 4 s between retries, never succeeds at
any attempt before the last one made, and returns the parsed JSON of the
attempt that succeeds. -/
theorem llm_retry_budget (oracle : ℕ → ProviderOutcome) :
    1 ≤ (llmCallWithRetry oracle).calls ∧
    (llmCallWithRetry oracle).calls ≤ 3 ∧
    (llmCallWithRetry oracle).delays =
      [2000, 4000].take ((llmCallWithRetry oracle).calls - 1) ∧
    (∀ k, 1 ≤ k → k < (llmCallWithRetry oracle).calls →
      ∀ j, oracle k ≠ .success j) ∧
    (∀ j, oracle (llmCallWithRetry oracle).calls = .success j →
      (llmCallWithRetry oracle).result = .ok j) := by
  have hsucc : ∀ k j, oracle k = .success j → callOpenAI (oracle k) = .ok j := by
    intro k j hk
    rw [hk]
    rfl
  have hnsucc : ∀ k (e : AppError), callOpenAI (oracle k) = .error e →
      ∀ j, oracle k ≠ .success j := by
    intro k e hk j hj
    rw [hsucc k j hj] at hk
    cases hk
  cases hco1 : callOpenAI (oracle 1) with
  | ok j1 =>
    have E : llmCallWithRetry oracle = ⟨.ok j1, 1, []⟩ := by
      show retrySim (fun n => callOpenAI (oracle n)) 2000 1 3 none = _
      exact retrySim_ok _ 2000 1 2 none j1 hco1
    rw [E]
    refine ⟨le_refl 1, (by norm_num : (1 : ℕ) ≤ 3), rfl, ?_, ?_⟩
    · intro k hk1 hk2 j
      have hk2' : k < 1 := hk2
      omega
    · intro j hj
      rw [hsucc 1 j hj] at hco1
      simpa using hco1.symm
  | error e1 =>
    have hc1 : ¬(400 ≤ e1.statusCode ∧ e1.statusCode < 500) := by
      rcases callOpenAI_error_code _ _ hco1 with h | h <;> omega
    have E1 := retrySim_err_cont (fun n => callOpenAI (oracle n)) 2000 1 2 none
      e1 hco1 hc1 (by norm_num)
    cases hco2 : callOpenAI (oracle 2) with
    | ok j2 =>
      have E2 := retrySim_ok (fun n => callOpenAI (oracle n)) 2000 2 1
        (some e1) j2 hco2
      have E : llmCallWithRetry oracle = ⟨.ok j2, 2, [2000]⟩ := by
        show retrySim (fun n => callOpenAI (oracle n)) 2000 1 3 none = _
        rw [E1, E2]
        norm_num
      rw [E]
      refine ⟨(by norm_num : (1 : ℕ) ≤ 2), (by norm_num : (2 : ℕ) ≤ 3), rfl,
        ?_, ?_⟩
      · intro k hk1 hk2 j
        have hk2' : k < 2 := hk2
        have : k = 1 := by omega
        subst this
        exact hnsucc 1 e1 hco1 j
      · intro j hj
        rw [hsucc 2 j hj] at hco2
        simpa using hco2.symm
    | error e2 =>
      have hc2 : ¬(400 ≤ e2.statusCode ∧ e2.statusCode < 500) := by
        rcases callOpenAI_error_code _ _ hco2 with h | h <;> omega
      have E2 := retrySim_err_cont (fun n => callOpenAI (oracle n)) 2000 2 1
        (some e1) e2 hco2 hc2 (by norm_num)
      cases hco3 : callOpenAI (oracle 3) with
      | ok j3 =>
        have E3 := retrySim_ok (fun n => callOpenAI (oracle n)) 2000 3 0
          (some e2) j3 hco3
        have E : llmCallWithRetry oracle = ⟨.ok j3, 3, [2000, 4000]⟩ := by
          show retrySim (fun n => callOpenAI (oracle n)) 2000 1 3 none = _
          rw [E1, E2, E3]
          norm_num
        rw [E]
        refine ⟨(by norm_num : (1 : ℕ) ≤ 3), le_refl 3, rfl, ?_, ?_⟩
        · intro k hk1 hk2 j
          have hk2' : k < 3 := hk2
          interval_cases k
          · exact hnsucc 1 e1 hco1 j
          · exact hnsucc 2 e2 hco2 j
        · intro j hj
          rw [hsucc 3 j hj] at hco3
          simpa using hco3.symm
      | error e3 =>
        have hc3 : ¬(400 ≤ e3.statusCode ∧ e3.statusCode < 500) := by
          rcases callOpenAI_error_code _ _ hco3 with h | h <;> omega
        have E3 := retrySim_err_last (fun n => callOpenAI (oracle n)) 2000 3
          (some e2) e3 hco3 hc3
        have E : llmCallWithRetry oracle = ⟨.error e3, 3, [2000, 4000]⟩ := by
          show retrySim (fun n => callOpenAI (oracle n)) 2000 1 3 none = _
          rw [E1, E2, E3]
          norm_num
        rw [E]
        refine ⟨(by norm_num : (1 : ℕ) ≤ 3), le_refl 3, rfl, ?_, ?_⟩
        · intro k hk1 hk2 j
          have hk2' : k < 3 := hk2
          interval_cases k
          · exact hnsucc 1 e1 hco1 j
          · exact hnsucc 2 e2 hco2 j
        · intro j hj
          rw [hsucc 3 j hj] at hco3
          cases hco3

/-- Witness for C8: an oracle succeeding on the second attempt produces
2 calls, a single 2 s wait, no success before attempt 2 and the parsed
JSON of attempt 2. -/
theorem llm_retry_budget_witness :
    1 ≤ (llmCallWithRetry fun n => if n = 2 then .success "j" else .timeout).calls ∧
    (llmCallWithRetry fun n => if n = 2 then .success "j" else .timeout).calls ≤ 3 :=
  ⟨(llm_retry_budget fun n => if n = 2 then .success "j" else .timeout).1,
   (llm_retry_budget fun n => if n = 2 then .success "j" else .timeout).2.1⟩

/-- C2 counterexample: a provider that always answers HTTP 401 is called
three times by the gateway — the 401 is wrapped as a 503 OpenAIError before
the retry helper inspects it, so further outbound calls are issued. -/
theorem auth_failure_is_retried :
    (llmCallWithRetry fun _ => .httpError 401).calls = 3 := by
  rfl

/-- C2 (corrected): callOpenAI wraps every provider HTTP failure in an
error whose own statusCode is 503, so the retry helper's
no-retry-on-4xx rule never fires for provider calls: a persistent 4xx
provider failure (401 and non-429 alike) is retried up to the full 3-call
budget, while the helper applied to a raw error that does carry a 4xx
statusCode stops after a single call. -/
theorem llm_4xx_wrapped_and_retried (s : ℕ) (h4 : 400 ≤ s) (h5 : s < 500) :
    (∀ e, callOpenAI (.httpError s) = .error e → e.statusCode = 503) ∧
    (llmCallWithRetry fun _ => .httpError s).calls = 3 ∧
    (retry (α := String)
      (fun _ => .error ⟨"OPENAI_ERROR", s, "", none⟩) 3 2000).calls = 1 := by
  have hco : ∃ e, callOpenAI (.httpError s) = .error e ∧ e.statusCode = 503 := by
    by_cases h1 : s = 401
    · subst h1
      exact ⟨⟨"OPENAI_ERROR", 503, "Invalid OpenAI API key", some 401⟩,
        rfl, rfl⟩
    · by_cases h2 : s = 429
      · subst h2
        exact ⟨⟨"OPENAI_ERROR", 503, "OpenAI rate limit exceeded", some 429⟩,
          rfl, rfl⟩
      · refine ⟨⟨"OPENAI_ERROR", 503, "openai error", none⟩, ?_, rfl⟩
        simp [callOpenAI, h1, h2]
  obtain ⟨e, he, hsc⟩ := hco
  have hc : ¬(400 ≤ e.statusCode ∧ e.statusCode < 500) := by omega
  refine ⟨?_, ?_, ?_⟩
  · intro e2 he2
    rw [he] at he2
    cases he2
    exact hsc
  · have E1 := retrySim_err_cont
      (fun n => callOpenAI ((fun _ => ProviderOutcome.httpError s) n)) 2000 1 2
      none e he hc (by norm_num)
    have E2 := retrySim_err_cont
      (fun n => callOpenAI ((fun _ => ProviderOutcome.httpError s) n)) 2000 2 1
      (some e) e he hc (by norm_num)
    have E3 := retrySim_err_last
      (fun n => callOpenAI ((fun _ => ProviderOutcome.httpError s) n)) 2000 3
      (some e) e he hc
    show (retrySim
      (fun n => callOpenAI ((fun _ => ProviderOutcome.httpError s) n))
      2000 1 3 none).calls = 3
    rw [E1, E2, E3]
  · have E := retrySim_err_4xx (α := String)
      (fun _ => .error ⟨"OPENAI_ERROR", s, "", none⟩) 2000 1 2 none
      ⟨"OPENAI_ERROR", s, "", none⟩ rfl ⟨h4, h5⟩
    show (retrySim (α := String)
      (fun _ => .error ⟨"OPENAI_ERROR", s, "", none⟩) 2000 1 3 none).calls = 1
    rw [E]

/-- Witness for C2's amended statement at the concrete status 403. -/
theorem llm_4xx_wrapped_and_retried_witness :
    (llmCallWithRetry fun _ => .httpError 403).calls = 3 :=
  (llm_4xx_wrapped_and_retried 403 (by norm_num) (by norm_num)).2.1

theorem getRunModel_some_spec (store : List RunRow) (rid : String) (r : RunRow)
    (h : getRunModel store rid = some r) :
    r ∈ store ∧ r.runId = rid ∧ r.status = .active := by
  unfold getRunModel at h
  cases hf : store.filter fun x => decide (x.runId = rid ∧ x.status = .active) with
  | nil =>
    rw [hf] at h
    cases h
  | cons a t =>
    rw [hf] at h
    simp only [List.head?_cons, Option.some.injEq] at h
    subst h
    have hmem : a ∈ store.filter
        fun x => decide (x.runId = rid ∧ x.status = .active) := by
      rw [hf]
      exact List.mem_cons_self a t
    obtain ⟨h1, h2⟩ := List.mem_filter.mp hmem
    exact ⟨h1, of_decide_eq_true h2⟩

theorem getRunModel_none_iff (store : List RunRow) (rid : String) :
    getRunModel store rid = none ↔
      ∀ r ∈ store, ¬(r.runId = rid ∧ r.status = .active) := by
  unfold getRunModel
  rw [List.head?_eq_none_iff, List.filter_eq_nil_iff]
  simp

theorem getRunModel_mem_active (store : List RunRow) (rid : String) (r : RunRow)
    (hmem : r ∈ store) (hid : r.runId = rid) (hact : r.status = .active) :
    ∃ r2, getRunModel store rid = some r2 ∧ r2.runId = rid ∧
      r2.status = .active := by
  cases hf : getRunModel store rid with
  | some r2 =>
    obtain ⟨_, h2, h3⟩ := getRunModel_some_spec _ _ _ hf
    exact ⟨r2, rfl, h2, h3⟩
  | none =>
    exact absurd ⟨hid, hact⟩ ((getRunModel_none_iff _ _).mp hf r hmem)

/-- C1 (corrected): getRun returns a run exactly when a row with that id has
status active; the expiration deadline is not consulted, so an active run
whose expires_at has passed is still returned by reads. A missing run is
surfaced by StorageService.getRun as UPSTREAM_ARTIFACT_MISSING (424). -/
theorem getRun_ignores_expiration (store : List RunRow) (rid : String) :
    (∀ r, getRunModel store rid = some r →
      r.runId = rid ∧ r.status = .active) ∧
    (getRunModel store rid = none ↔
      ∀ r ∈ store, ¬(r.runId = rid ∧ r.status = .active)) ∧
    (∀ now : ℤ, ∀ r ∈ store, r.runId = rid → r.status = .active →
      r.expiresAt < now →
      ∃ r2, getRunModel store rid = some r2 ∧ r2.status = .active) ∧
    (getRunModel store rid = none →
      storageGetRun store rid =
        .error (upstreamMissingError "Run not found")) := by
  refine ⟨?_, getRunModel_none_iff store rid, ?_, ?_⟩
  · intro r h
    exact (getRunModel_some_spec store rid r h).2
  · intro now r hmem hid hact _
    obtain ⟨r2, h1, _, h3⟩ := getRunModel_mem_active store rid r hmem hid hact
    exact ⟨r2, h1, h3⟩
  · intro h
    unfold storageGetRun
    rw [h]

/-- Witness for C1's amended statement: the lookup of an absent run id
yields the 424 error. -/
theorem getRun_ignores_expiration_witness :
    storageGetRun [] "run_x" = .error (upstreamMissingError "Run not found") :=
  (getRun_ignores_expiration [] "run_x").2.2.2 rfl

/-- C1 counterexample: a run with status active whose expires_at (0) lies
before the current time (1) is still returned by getRun, contradicting the
claim that an expired active run is not returned. -/
theorem expired_active_run_still_returned :
    getRunModel [⟨"run_e", .active, 0, some "brand", none, none, none⟩]
      "run_e" =
      some ⟨"run_e", .active, 0, some "brand", none, none, none⟩ ∧
    (⟨"run_e", .active, 0, some "brand", none, none, none⟩ :
      RunRow).expiresAt < 1 := by
  exact ⟨rfl, by decide⟩

theorem failsUpstream424_of_error (store : List RunRow)
    (res : Except AppError (List RunRow)) (m : String)
    (h : res = .error (upstreamMissingError m)) :
    failsUpstream424 store res := by
  refine ⟨⟨upstreamMissingError m, h, rfl, rfl⟩, ?_⟩
  rw [h]
  rfl

/-- C6 (confirmed): invoking Competitors, CompetitorsAnalyze or Kernel for
an unknown run id fails with 424 UPSTREAM_ARTIFACT_MISSING and leaves the
store unchanged, and so does invoking them on a known run whose required
upstream slot is empty. -/
theorem phase_gate_424 (store : List RunRow) (rid : String)
    (cands : List Candidate) (analyses : List String) (kern : String) :
    ((∀ r ∈ store, r.runId ≠ rid) →
      failsUpstream424 store (competitorsRoute store rid cands) ∧
      failsUpstream424 store (competitorsAnalyzeRoute store rid analyses) ∧
      failsUpstream424 store (kernelRoute store rid kern)) ∧
    (∀ r, getRunModel store rid = some r →
      (r.brandData = none →
        failsUpstream424 store (competitorsRoute store rid cands) ∧
        failsUpstream424 store (kernelRoute store rid kern)) ∧
      (r.competitors10 = none →
        failsUpstream424 store (competitorsAnalyzeRoute store rid analyses)) ∧
      (r.brandData ≠ none →
        (r.competitorsSelected = none ∨ r.competitorsSelected = some []) →
        failsUpstream424 store (kernelRoute store rid kern))) := by
  constructor
  · intro h
    have hnone : getRunModel store rid = none :=
      (getRunModel_none_iff store rid).mpr fun r hr hc => h r hr hc.1
    have hget : storageGetRun store rid =
        .error (upstreamMissingError "Run not found") := by
      unfold storageGetRun
      rw [hnone]
    refine ⟨failsUpstream424_of_error _ _ "Run not found" ?_,
      failsUpstream424_of_error _ _ "Run not found" ?_,
      failsUpstream424_of_error _ _ "Run not found" ?_⟩
    · unfold competitorsRoute
      rw [hget]
    · unfold competitorsAnalyzeRoute
      rw [hget]
    · unfold kernelRoute
      rw [hget]
  · intro r hsome
    have hget : storageGetRun store rid = .ok r := by
      unfold storageGetRun
      rw [hsome]
    refine ⟨?_, ?_, ?_⟩
    · intro hbrand
      refine ⟨failsUpstream424_of_error _ _
          "Brand analysis not found for this run" ?_,
        failsUpstream424_of_error _ _ "Brand analysis not found" ?_⟩
      · unfold competitorsRoute
        rw [hget]
        simp [hbrand]
      · unfold kernelRoute
        rw [hget]
        simp [hbrand]
    · intro hc10
      refine failsUpstream424_of_error _ _
        "Competitors not discovered yet" ?_
      unfold competitorsAnalyzeRoute
      rw [hget]
      simp [hc10]
    · intro hbrand hsel
      refine failsUpstream424_of_error _ _
        "No analyzed competitors found" ?_
      unfold kernelRoute
      rw [hget]
      rcases hsel with hs | hs <;>
        simp [hs, Option.isNone_iff_eq_none, hbrand]

/-- Witness for C6: the kernel phase against an empty store and the fresh
id run_x fails with 424 leaving the store unchanged, and so does the
kernel phase on a run whose competitors_selected slot is empty. -/
theorem phase_gate_424_witness :
    failsUpstream424 [] (kernelRoute [] "run_x" "k") ∧
    failsUpstream424 [⟨"run_1", .active, 9, some "b", none, none, none⟩]
      (kernelRoute [⟨"run_1", .active, 9, some "b", none, none, none⟩]
        "run_1" "k") := by
  constructor
  · exact ((phase_gate_424 [] "run_x" [] [] "k").1 (by simp)).2.2
  · exact (((phase_gate_424
      [⟨"run_1", .active, 9, some "b", none, none, none⟩] "run_1" [] [] "k").2
      ⟨"run_1", .active, 9, some "b", none, none, none⟩ rfl).2.2
      (by simp) (Or.inl rfl))

theorem jaccardSimilarity_comm (s t : Finset String) :
    jaccardSimilarity s t = jaccardSimilarity t s := by
  unfold jaccardSimilarity
  rw [Finset.inter_comm, Finset.union_comm]

theorem dedupGo_sublist (rest : List Page) :
    ∀ unique, ∃ s, dedupGo unique rest = unique ++ s ∧ s.Sublist rest := by
  induction rest with
  | nil =>
    intro unique
    exact ⟨[], by simp [dedupGo], List.nil_sublist []⟩
  | cons p ps ih =>
    intro unique
    by_cases hg : (unique.any fun u => similarPages p u) = true
    · obtain ⟨s, h1, h2⟩ := ih unique
      exact ⟨s, by simp [dedupGo, hg, h1], h2.cons p⟩
    · obtain ⟨s, h1, h2⟩ := ih (unique ++ [p])
      refine ⟨p :: s, ?_, h2.cons₂ p⟩
      simp [dedupGo, hg, h1]

theorem dedupGo_pairwise (rest : List Page) :
    ∀ unique, unique.Pairwise (fun a b =>
      jaccardSimilarity (pageTokens a) (pageTokens b) ≤ 4/5) →
    (dedupGo unique rest).Pairwise (fun a b =>
      jaccardSimilarity (pageTokens a) (pageTokens b) ≤ 4/5) := by
  induction rest with
  | nil =>
    intro u hu
    simpa [dedupGo] using hu
  | cons p ps ih =>
    intro u hu
    by_cases hg : (u.any fun x => similarPages p x) = true
    · simpa [dedupGo, hg] using ih u hu
    · have hall : ∀ x ∈ u, similarPages p x = false := by
        intro x hx
        by_contra hc
        exact hg (List.any_eq_true.mpr ⟨x, hx, by simpa using hc⟩)
      have hnew : (u ++ [p]).Pairwise (fun a b =>
          jaccardSimilarity (pageTokens a) (pageTokens b) ≤ 4/5) := by
        rw [List.pairwise_append]
        refine ⟨hu, List.pairwise_singleton _ _, ?_⟩
        intro a ha b hb
        simp only [List.mem_singleton] at hb
        subst hb
        have hf := hall a ha
        unfold similarPages at hf
        rw [jaccardSimilarity_comm]
        exact le_of_not_lt (of_decide_eq_false hf)
      simpa [dedupGo, hg] using ih (u ++ [p]) hnew

theorem deduplicateContent_head (pages : List Page) :
    (deduplicateContent pages).head? = pages.head? := by
  cases pages with
  | nil => rfl
  | cons p rest =>
    obtain ⟨s, h1, _⟩ := dedupGo_sublist rest [p]
    show (dedupGo [p] rest).head? = (p :: rest).head?
    rw [h1]
    rfl

/-- C7 (confirmed): the dedup guard fires exactly when the Jaccard
similarity of the lowercased whitespace-split token sets exceeds 0.8; the
output keeps the first page, is a subsequence of the input, and every pair
of pages in it has Jaccard similarity at most 0.8. -/
theorem dedup_spec (pages : List Page) :
    (∀ p q, similarPages p q = true ↔
      jaccardSimilarity (pageTokens p) (pageTokens q) > 4/5) ∧
    (deduplicateContent pages).Sublist pages ∧
    (deduplicateContent pages).Pairwise (fun a b =>
      jaccardSimilarity (pageTokens a) (pageTokens b) ≤ 4/5) ∧
    (deduplicateContent pages).head? = pages.head? := by
  refine ⟨fun p q => by simp [similarPages], ?_, ?_,
    deduplicateContent_head pages⟩
  · cases pages with
    | nil => exact List.nil_sublist []
    | cons p rest =>
      obtain ⟨s, h1, h2⟩ := dedupGo_sublist rest [p]
      show (dedupGo [p] rest).Sublist (p :: rest)
      rw [h1]
      exact h2.cons₂ p
  · cases pages with
    | nil => exact List.Pairwise.nil
    | cons p rest =>
      exact dedupGo_pairwise rest [p] (List.pairwise_singleton _ _)

/-- C3 (corrected): on a cache miss, scrapeWebsite fails with
InsufficientData exactly when probing leaves zero accessible URLs; once at
least one URL survives probing it always succeeds regardless of the fetch
outcomes — individual fetch failures are absorbed and zero fetched pages
yields an empty result that is returned and cached rather than an
InsufficientData failure (the three-page minimum lives in the
brand-summary route, not in the scraper); a cache hit is returned as is. -/
theorem scrape_fail_semantics (probeOk : String → Bool)
    (fetch : String → Option Page) (conc : ℕ) (url sanitized : String)
    (h : sanitizeUrl url = .ok sanitized) :
    ((discoverPages sanitized).filter probeOk = [] ↔
      scrapeWebsite none probeOk fetch conc url =
        .error (.insufficientData "No accessible pages found")) ∧
    ((discoverPages sanitized).filter probeOk ≠ [] →
      ∃ res, scrapeWebsite none probeOk fetch conc url = .ok (res, some res)) ∧
    (∀ c, scrapeWebsite (some c) probeOk fetch conc url = .ok (c, none)) := by
  refine ⟨⟨?_, ?_⟩, ?_, ?_⟩
  · intro hv
    unfold scrapeWebsite
    rw [h]
    simp [hv]
  · intro hres
    by_contra hv
    unfold scrapeWebsite at hres
    rw [h] at hres
    simp [hv] at hres
  · intro hv
    refine ⟨⟨deduplicateContent
        (scrapePages fetch conc ((discoverPages sanitized).filter probeOk)),
      ⟨sanitized, (extractDomain sanitized).getD "",
        (discoverPages sanitized).length,
        ((discoverPages sanitized).filter probeOk).length,
        (scrapePages fetch conc
          ((discoverPages sanitized).filter probeOk)).length,
        (deduplicateContent (scrapePages fetch conc
          ((discoverPages sanitized).filter probeOk))).length⟩⟩, ?_⟩
    unfold scrapeWebsite
    rw [h]
    simp [hv]
  · intro c
    unfold scrapeWebsite
    rw [h]

/-- Witness for C3's amended statement: a cache hit is returned unchanged
with no cache write. -/
theorem scrape_fail_semantics_witness :
    scrapeWebsite (some ⟨[], ⟨"u", "d", 0, 0, 0, 0⟩⟩) (fun _ => false)
      (fun _ => none) 5 "https://example.com" =
      .ok (⟨[], ⟨"u", "d", 0, 0, 0, 0⟩⟩, none) :=
  (scrape_fail_semantics (fun _ => false) (fun _ => none) 5
    "https://example.com" "https://example.com/" (by rfl)).2.2
    ⟨[], ⟨"u", "d", 0, 0, 0, 0⟩⟩

/-- C3 counterexample: when probing leaves one accessible URL but every
page fetch fails, scrapeWebsite returns — and caches — an empty
ScrapeResult instead of failing with InsufficientData. -/
theorem scrape_zero_pages_returns_empty :
    scrapeWebsite none (fun u => u = "https://example.com/") (fun _ => none)
      5 "https://example.com" =
    .ok (⟨[], ⟨"https://example.com/", "example.com", 21, 1, 0, 0⟩⟩,
      some ⟨[], ⟨"https://example.com/", "example.com", 21, 1, 0, 0⟩⟩) := by
  rfl

theorem charLower_eq_cases (c : Char) :
    charLower c = c ∨ charLower c ∈
      ['a','b','c','d','e','f','g','h','i','j','k','l','m',
       'n','o','p','q','r','s','t','u','v','w','x','y','z'] := by
  unfold charLower
  split <;> first | (left; rfl) | (right; decide)

theorem charLower_idem (c : Char) : charLower (charLower c) = charLower c := by
  rcases charLower_eq_cases c with h | h
  · rw [h, h]
  · simp only [List.mem_cons, List.not_mem_nil, or_false] at h
    rcases h with h | h | h | h | h | h | h | h | h | h | h | h | h | h | h |
      h | h | h | h | h | h | h | h | h | h | h <;> (rw [h]; decide)

theorem hostCharOK_charLower (c : Char) (hc : hostCharOK c = true) :
    hostCharOK (charLower c) = true := by
  unfold charLower
  split <;> first | decide | exact hc

theorem schemeCharOK_charLower (c : Char) (hc : schemeCharOK c = true) :
    schemeCharOK (charLower c) = true := by
  unfold charLower
  split <;> first | decide | exact hc

theorem isAlpha_charLower (c : Char) (hc : c.isAlpha = true) :
    (charLower c).isAlpha = true := by
  unfold charLower
  split <;> first | decide | exact hc

theorem map_charLower_fix (l : List Char) (h : ∀ c ∈ l, charLower c = c) :
    l.map charLower = l := by
  induction l with
  | nil => rfl
  | cons c cs ih =>
    simp only [List.map_cons, h c (List.mem_cons_self c cs),
      ih fun x hx => h x (List.mem_cons_of_mem c hx)]

theorem splitFirst_append (p : Char → Bool) (a b : List Char)
    (ha : ∀ c ∈ a, p c = false)
    (hb : b = [] ∨ ∃ d b2, b = d :: b2 ∧ p d = true) :
    splitFirst p (a ++ b) = (a, b) := by
  induction a with
  | nil =>
    rcases hb with rfl | ⟨d, b2, rfl, hd⟩
    · rfl
    · simp [splitFirst, hd]
  | cons c cs ih =>
    have hc : p c = false := ha c (List.mem_cons_self c cs)
    have ih2 := ih fun x hx => ha x (List.mem_cons_of_mem c hx)
    simp [splitFirst, hc, ih2]

theorem splitFirst_spec (p : Char → Bool) (l : List Char) :
    (∀ c ∈ (splitFirst p l).1, p c = false) ∧
    ((splitFirst p l).2 = [] ∨
      ∃ d t, (splitFirst p l).2 = d :: t ∧ p d = true) ∧
    l = (splitFirst p l).1 ++ (splitFirst p l).2 := by
  induction l with
  | nil => exact ⟨fun c hc => absurd hc (List.not_mem_nil c), Or.inl rfl, rfl⟩
  | cons c cs ih =>
    by_cases hc : p c = true
    · refine ⟨?_, Or.inr ⟨c, cs, ?_, hc⟩, ?_⟩ <;> simp [splitFirst, hc]
    · have hc' : p c = false := by
        simpa using hc
      obtain ⟨h1, h2, h3⟩ := ih
      refine ⟨?_, ?_, ?_⟩
      · intro x hx
        simp only [splitFirst, hc', Bool.false_eq_true, if_false,
          List.mem_cons] at hx
        rcases hx with rfl | hx
        · exact hc'
        · exact h1 x hx
      · simpa [splitFirst, hc'] using h2
      · simpa [splitFirst, hc'] using h3

theorem stripLeadingZeros_ne_nil (ds : List Char) :
    stripLeadingZeros ds ≠ [] := by
  unfold stripLeadingZeros
  split
  · simp
  · assumption

theorem stripLeadingZeros_digits (ds : List Char)
    (h : ∀ c ∈ ds, c.isDigit = true) :
    ∀ c ∈ stripLeadingZeros ds, c.isDigit = true := by
  unfold stripLeadingZeros
  split
  · intro c hc
    simp only [List.mem_singleton] at hc
    subst hc
    decide
  · intro c hc
    exact h c ((ds.dropWhile_sublist (· = '0')).subset hc)

theorem stripLeadingZeros_idem (ds : List Char) :
    stripLeadingZeros (stripLeadingZeros ds) = stripLeadingZeros ds := by
  induction ds with
  | nil => rfl
  | cons c cs ih =>
    by_cases hc : c = '0'
    · subst hc
      have he : stripLeadingZeros ('0' :: cs) = stripLeadingZeros cs := by
        unfold stripLeadingZeros
        simp [List.dropWhile_cons]
      rw [he, ih]
    · have he : stripLeadingZeros (c :: cs) = c :: cs := by
        unfold stripLeadingZeros
        simp [List.dropWhile_cons, hc]
      rw [he, he]

theorem normalizePort_norm (scheme ds p : List Char)
    (h : normalizePort scheme ds = some p) :
    normalizePort scheme p = some p := by
  unfold normalizePort at h ⊢
  split at h
  · cases h
  · split at h
    · cases h
    · rename_i hdef
      simp only [Option.some.injEq] at h
      subst h
      rw [if_neg (stripLeadingZeros_ne_nil ds), stripLeadingZeros_idem ds,
        if_neg hdef]

theorem normalizePort_digits (scheme ds p : List Char)
    (hds : ∀ c ∈ ds, c.isDigit = true)
    (h : normalizePort scheme ds = some p) :
    ∀ c ∈ p, c.isDigit = true := by
  unfold normalizePort at h
  split at h
  · cases h
  · split at h
    · cases h
    · simp only [Option.some.injEq] at h
      subst h
      exact stripLeadingZeros_digits ds hds

theorem parsePortPart_spec (scheme portPart pl : List Char)
    (h : parsePortPart scheme portPart = some (some pl)) :
    pl.all Char.isDigit = true ∧ normalizePort scheme pl = some pl := by
  unfold parsePortPart at h
  split at h
  · simp at h
  · rename_i ds
    split at h
    case _ hdig =>
      simp only [Option.some.injEq] at h
      exact ⟨List.all_eq_true.mpr
        (normalizePort_digits _ ds pl (List.all_eq_true.mp hdig) h),
        normalizePort_norm _ ds pl h⟩
    case _ => cases h
  · cases h

theorem parsePathPart_spec (rest3 : List Char) :
    (∃ t, (parsePathPart rest3).1 = '/' :: t) ∧
    (∀ c ∈ (parsePathPart rest3).1, c ≠ '?' ∧ c ≠ '#') := by
  unfold parsePathPart
  split
  · rename_i t
    have hp3 : ((fun c => decide (c = '?') || decide (c = '#')) '/') = false := by
      decide
    have hsf : splitFirst (fun c => c = '?' || c = '#') ('/' :: t) =
        ('/' :: (splitFirst (fun c => c = '?' || c = '#') t).1,
         (splitFirst (fun c => c = '?' || c = '#') t).2) := by
      simp [splitFirst, hp3]
    rw [hsf]
    constructor
    · exact ⟨(splitFirst (fun c => c = '?' || c = '#') t).1, rfl⟩
    · intro c hc
      rcases List.mem_cons.mp hc with rfl | hc2
      · exact ⟨by decide, by decide⟩
      · have := (splitFirst_spec (fun c => c = '?' || c = '#') t).1 c hc2
        simp only [Bool.or_eq_false_iff, decide_eq_false_iff_not] at this
        exact this
  · refine ⟨⟨[], rfl⟩, ?_⟩
    intro c hc
    simp only [List.mem_singleton] at hc
    subst hc
    exact ⟨by decide, by decide⟩

theorem parseQF_query_spec (rest4 ql : List Char)
    (h : (parseQF rest4).1 = some ql) : ∀ c ∈ ql, c ≠ '#' := by
  unfold parseQF at h
  split at h
  · rename_i rq
    simp only [Option.some.injEq] at h
    subst h
    intro c hc
    have := (splitFirst_spec (· = '#') rq).1 c hc
    simpa using this
  · cases h
  · cases h

theorem urlParseL_wf (l : List Char) (r : URLRecord)
    (h : urlParseL l = some r) : URLWF r := by
  unfold urlParseL at h
  split at h
  case _ schemeRaw rest2 heq =>
    by_cases hSV : schemeValid schemeRaw = true
    case neg =>
      rw [if_neg hSV] at h
      cases h
    rw [if_pos hSV] at h
    split at h
    rename_i auth rest3 heqA
    split at h
    rename_i hostRaw portPart heqH
    by_cases hHV : hostValid hostRaw = true
    case neg =>
      rw [if_neg hHV] at h
      cases h
    rw [if_pos hHV] at h
    split at h
    case _ heqP => cases h
    case _ port heqP =>
    split at h
    rename_i path rest4 heqPath
    split at h
    rename_i query frag heqQF
    simp only [Option.some.injEq] at h
    subst h
    unfold schemeValid at hSV
    simp only [Bool.and_eq_true, Bool.not_eq_true', List.isEmpty_eq_false,
      List.all_eq_true] at hSV
    obtain ⟨⟨hSne, hSall⟩, hShd⟩ := hSV
    unfold hostValid at hHV
    simp only [Bool.and_eq_true, Bool.not_eq_true', List.isEmpty_eq_false,
      List.all_eq_true] at hHV
    obtain ⟨hHne, hHall⟩ := hHV
    have hfst := congrArg Prod.fst heqPath
    have hqf := congrArg Prod.fst heqQF
    refine ⟨?_, ?_, ?_, ?_, ?_, ?_, ?_, ?_⟩
    · cases schemeRaw with
      | nil => exact absurd rfl hSne
      | cons c t =>
        exact ⟨charLower c, t.map charLower, rfl, isAlpha_charLower c hShd⟩
    · intro x hx
      obtain ⟨y, hy, rfl⟩ := List.mem_map.mp hx
      exact ⟨schemeCharOK_charLower y (hSall y hy), charLower_idem y⟩
    · intro hmap
      exact hHne (List.map_eq_nil_iff.mp hmap)
    · intro x hx
      obtain ⟨y, hy, rfl⟩ := List.mem_map.mp hx
      exact ⟨hostCharOK_charLower y (hHall y hy), charLower_idem y⟩
    · intro p hp
      cases port with
      | none => cases hp
      | some pl =>
        simp only [Option.map_some', Option.some.injEq] at hp
        subst hp
        exact parsePortPart_spec _ portPart pl heqP
    · obtain ⟨t, ht⟩ := (parsePathPart_spec rest3).1
      rw [hfst] at ht
      exact ⟨t, ht⟩
    · intro c hc
      have hc2 : c ∈ (parsePathPart rest3).1 := by
        rw [hfst]
        exact hc
      exact (parsePathPart_spec rest3).2 c hc2
    · intro q hq
      cases query with
      | none => cases hq
      | some ql =>
        simp only [Option.map_some', Option.some.injEq] at hq
        subst hq
        have hql : (parseQF rest4).1 = some ql := by
          rw [hqf]
        exact parseQF_query_spec rest4 ql hql
  case _ => cases h

theorem schemeCharOK_not_colon (c : Char) (hc : schemeCharOK c = true) :
    (decide (c = ':')) = false := by
  by_cases h : c = ':'
  · subst h
    exact absurd hc (by decide)
  · simp [h]

theorem hostCharOK_not_colon (c : Char) (hc : hostCharOK c = true) :
    (decide (c = ':')) = false := by
  by_cases h : c = ':'
  · subst h
    exact absurd hc (by decide)
  · simp [h]

theorem hostCharOK_not_delim (c : Char) (hc : hostCharOK c = true) :
    (decide (c = '/') || decide (c = '?') || decide (c = '#')) = false := by
  have h1 : c ≠ '/' := fun h => absurd hc (by subst h; decide)
  have h2 : c ≠ '?' := fun h => absurd hc (by subst h; decide)
  have h3 : c ≠ '#' := fun h => absurd hc (by subst h; decide)
  simp [h1, h2, h3]

theorem isDigit_not_delim (c : Char) (hc : c.isDigit = true) :
    (decide (c = '/') || decide (c = '?') || decide (c = '#')) = false := by
  have h1 : c ≠ '/' := fun h => absurd hc (by subst h; decide)
  have h2 : c ≠ '?' := fun h => absurd hc (by subst h; decide)
  have h3 : c ≠ '#' := fun h => absurd hc (by subst h; decide)
  simp [h1, h2, h3]

theorem option_map_mk_data (o : Option String) :
    Option.map String.mk (Option.map String.data o) = o := by
  cases o <;> rfl

theorem urlParseL_serialize (r : URLRecord) (wf : URLWF r) :
    urlParseL (urlSerializeL r) = some r := by
  obtain ⟨hd0, tl0, hS0, hS0a⟩ := wf.scheme_head
  obtain ⟨pt, hPt⟩ := wf.path_start
  have SF1 : splitFirst (· = ':') (urlSerializeL r) =
      (r.scheme.data, ':' :: '/' :: '/' ::
        (r.host.data ++ (portL r.port ++ (r.path.data ++
          (queryL r.query ++ fragL r.fragment))))) := by
    have he : urlSerializeL r = r.scheme.data ++ (':' :: '/' :: '/' ::
        (r.host.data ++ (portL r.port ++ (r.path.data ++
          (queryL r.query ++ fragL r.fragment))))) := rfl
    rw [he]
    apply splitFirst_append
    · intro c hc
      exact schemeCharOK_not_colon c (wf.scheme_ok c hc).1
    · exact Or.inr ⟨':', _, rfl, by decide⟩
  have SF2 : splitFirst (fun c => c = '/' || c = '?' || c = '#')
      (r.host.data ++ (portL r.port ++ (r.path.data ++
        (queryL r.query ++ fragL r.fragment)))) =
      (r.host.data ++ portL r.port,
       r.path.data ++ (queryL r.query ++ fragL r.fragment)) := by
    have hassoc : r.host.data ++ (portL r.port ++ (r.path.data ++
        (queryL r.query ++ fragL r.fragment))) =
        (r.host.data ++ portL r.port) ++ (r.path.data ++
          (queryL r.query ++ fragL r.fragment)) :=
      (List.append_assoc _ _ _).symm
    rw [hassoc]
    apply splitFirst_append
    · intro c hc
      rcases List.mem_append.mp hc with hc | hc
      · exact hostCharOK_not_delim c (wf.host_ok c hc).1
      · cases hport : r.port with
        | none =>
          rw [hport] at hc
          cases hc
        | some p =>
          rw [hport] at hc
          rcases List.mem_cons.mp hc with rfl | hc2
          · decide
          · exact isDigit_not_delim c
              (List.all_eq_true.mp (wf.port_ok p hport).1 c hc2)
    · refine Or.inr ⟨'/', pt ++ (queryL r.query ++ fragL r.fragment), ?_,
        by decide⟩
      rw [hPt]
      rfl
  have SF3 : splitFirst (· = ':') (r.host.data ++ portL r.port) =
      (r.host.data, portL r.port) := by
    apply splitFirst_append
    · intro c hc
      exact hostCharOK_not_colon c (wf.host_ok c hc).1
    · cases hport : r.port with
      | none => exact Or.inl rfl
      | some p => exact Or.inr ⟨':', p.data, rfl, by decide⟩
  have hmapS : r.scheme.data.map charLower = r.scheme.data :=
    map_charLower_fix _ fun c hc => (wf.scheme_ok c hc).2
  have hmapH : r.host.data.map charLower = r.host.data :=
    map_charLower_fix _ fun c hc => (wf.host_ok c hc).2
  have hSV : schemeValid r.scheme.data = true := by
    unfold schemeValid
    simp only [Bool.and_eq_true, Bool.not_eq_true', List.isEmpty_eq_false,
      List.all_eq_true]
    refine ⟨⟨?_, fun c hc => (wf.scheme_ok c hc).1⟩, ?_⟩
    · rw [hS0]
      simp
    · rw [hS0]
      exact hS0a
  have hHV : hostValid r.host.data = true := by
    unfold hostValid
    simp only [Bool.and_eq_true, Bool.not_eq_true', List.isEmpty_eq_false,
      List.all_eq_true]
    exact ⟨wf.host_ne, fun c hc => (wf.host_ok c hc).1⟩
  have HP : parsePortPart (r.scheme.data.map charLower) (portL r.port) =
      some (r.port.map String.data) := by
    rw [hmapS]
    cases hport : r.port with
    | none => rfl
    | some p =>
      obtain ⟨hdig, hnorm⟩ := wf.port_ok p hport
      show (if p.data.all Char.isDigit then
        some (normalizePort r.scheme.data p.data) else none) =
        some (some p.data)
      rw [if_pos hdig, hnorm]
  have PATH : parsePathPart (r.path.data ++
      (queryL r.query ++ fragL r.fragment)) =
      (r.path.data, queryL r.query ++ fragL r.fragment) := by
    rw [hPt]
    show splitFirst (fun c => c = '?' || c = '#')
        (('/' :: pt) ++ (queryL r.query ++ fragL r.fragment)) =
      ('/' :: pt, queryL r.query ++ fragL r.fragment)
    apply splitFirst_append
    · intro c hc
      have hc' : c ∈ r.path.data := by
        rw [hPt]
        exact hc
      have hpo := wf.path_ok c hc'
      simp [hpo.1, hpo.2]
    · cases hq : r.query with
      | some q => exact Or.inr ⟨'?', q.data ++ fragL r.fragment, rfl, by decide⟩
      | none =>
        cases hf : r.fragment with
        | none => exact Or.inl rfl
        | some f => exact Or.inr ⟨'#', f.data, rfl, by decide⟩
  have QFE : parseQF (queryL r.query ++ fragL r.fragment) =
      (r.query.map String.data, r.fragment.map String.data) := by
    cases hq : r.query with
    | some q =>
      have hsf : splitFirst (· = '#') (q.data ++ fragL r.fragment) =
          (q.data, fragL r.fragment) := by
        apply splitFirst_append
        · intro c hc
          have hne := wf.query_ok q hq c hc
          simp [hne]
        · cases hf : r.fragment with
          | none => exact Or.inl rfl
          | some f => exact Or.inr ⟨'#', f.data, rfl, by decide⟩
      show (some (splitFirst (· = '#') (q.data ++ fragL r.fragment)).1,
          match (splitFirst (· = '#') (q.data ++ fragL r.fragment)).2 with
          | '#' :: f => some f
          | _ => none) = (some q.data, r.fragment.map String.data)
      rw [hsf]
      cases hf : r.fragment with
      | none => rfl
      | some f => rfl
    | none =>
      show parseQF (fragL r.fragment) = (none, r.fragment.map String.data)
      cases hf : r.fragment with
      | none => rfl
      | some f => rfl
  unfold urlParseL
  simp only [SF1, hSV, if_true, SF2, SF3, hHV, HP, PATH, QFE]
  rw [hmapS, hmapH, option_map_mk_data, option_map_mk_data,
    option_map_mk_data]

theorem sanitizeUrl_eq_of_parse (u : String) (r : URLRecord)
    (hp : urlParse u = some r) :
    sanitizeUrl u = if r.scheme = "http" ∨ r.scheme = "https" then
      .ok (urlSerialize { r with fragment := none })
    else .error "Invalid URL: Only HTTP and HTTPS protocols are allowed" := by
  unfold sanitizeUrl
  rw [hp]

theorem sanitizeUrl_eq_of_parse_none (u : String) (hp : urlParse u = none) :
    sanitizeUrl u = .error "Invalid URL" := by
  unfold sanitizeUrl
  rw [hp]

theorem sanitizeUrl_ok_parts (u s : String) (h : sanitizeUrl u = .ok s) :
    ∃ r, urlParse u = some r ∧ (r.scheme = "http" ∨ r.scheme = "https") ∧
      s = urlSerialize { r with fragment := none } ∧
      urlParse s = some { r with fragment := none } := by
  cases hp : urlParse u with
  | none =>
    rw [sanitizeUrl_eq_of_parse_none u hp] at h
    cases h
  | some r =>
    rw [sanitizeUrl_eq_of_parse u r hp] at h
    by_cases hsch : r.scheme = "http" ∨ r.scheme = "https"
    · rw [if_pos hsch] at h
      simp only [Except.ok.injEq] at h
      have wf : URLWF r := urlParseL_wf u.data r hp
      have wf2 : URLWF { r with fragment := none } :=
        ⟨wf.scheme_head, wf.scheme_ok, wf.host_ne, wf.host_ok, wf.port_ok,
         wf.path_start, wf.path_ok, wf.query_ok⟩
      refine ⟨r, rfl, hsch, h.symm, ?_⟩
      rw [← h]
      exact urlParseL_serialize _ wf2
    · rw [if_neg hsch] at h
      cases h

/-- C9 (confirmed): sanitizeUrl is idempotent on every URL it accepts; it
accepts only http/https URLs, stripping the fragment, and rejects every
other scheme and every input its parser cannot handle with an error. -/
theorem sanitizeUrl_spec :
    (∀ u s, sanitizeUrl u = .ok s → sanitizeUrl s = .ok s) ∧
    (∀ u s, sanitizeUrl u = .ok s → ∃ r, urlParse u = some r ∧
      (r.scheme = "http" ∨ r.scheme = "https") ∧
      urlParse s = some { r with fragment := none }) ∧
    (∀ u, urlParse u = none → sanitizeUrl u = .error "Invalid URL") ∧
    (∀ u r, urlParse u = some r → r.scheme ≠ "http" → r.scheme ≠ "https" →
      sanitizeUrl u =
        .error "Invalid URL: Only HTTP and HTTPS protocols are allowed") := by
  refine ⟨?_, ?_, ?_, ?_⟩
  · intro u s h
    obtain ⟨r, hp, hsch, hs, hps⟩ := sanitizeUrl_ok_parts u s h
    rw [sanitizeUrl_eq_of_parse s _ hps, if_pos hsch, hs]
  · intro u s h
    obtain ⟨r, hp, hsch, _, hps⟩ := sanitizeUrl_ok_parts u s h
    exact ⟨r, hp, hsch, hps⟩
  · intro u hp
    exact sanitizeUrl_eq_of_parse_none u hp
  · intro u r hp h1 h2
    rw [sanitizeUrl_eq_of_parse u r hp, if_neg ?_]
    rintro (h | h)
    · exact h1 h
    · exact h2 h

/-- Witness for C9: a mixed-case URL with default port and fragment
canonicalizes to its normal form, and sanitizing the normal form again is
the identity. -/
theorem sanitizeUrl_spec_witness :
    sanitizeUrl "HTTP://Example.COM:080/a/b?q=1#frag" =
      .ok "http://example.com/a/b?q=1" ∧
    sanitizeUrl "http://example.com/a/b?q=1" =
      .ok "http://example.com/a/b?q=1" := by
  have h1 : sanitizeUrl "HTTP://Example.COM:080/a/b?q=1#frag" =
      .ok "http://example.com/a/b?q=1" := by rfl
  exact ⟨h1, sanitizeUrl_spec.1 _ _ h1⟩

end GenAdGen
